/-
Verification of the opentelemetry-python telemetry export pipeline
(encoding + delivery subsystem) against its specification.

The development shallowly embeds the Python source:

* `Zipkin.*`  — the Zipkin encoder family
  (`exporter/opentelemetry-exporter-zipkin/src/.../encoder/__init__.py` and
  the Thrift encoders in `encoder/thrift/__init__.py`,
  `encoder/v1/thrift/__init__.py`; the two Thrift files define identical
  `encode_span_id` / `encode_trace_id` functions).
* `Otlp.*`    — the OTLP protobuf encoders
  (`exporter/opentelemetry-exporter-otlp/src/.../encoder/protobuf.py`,
  `encoder/span/protobuf.py`, `encoder/metric/protobuf.py`) and the gRPC
  sender (`sender/grpc.py`).
* `Grouping.*` — the Resource → InstrumentationScope → records grouping
  loop shared (textually duplicated) by the span and metric protobuf
  encoders.  Python `dict`s preserve insertion order and key membership is
  structural equality, so the dicts are embedded as association lists with
  append-at-end insertion.

Python strings are modelled as `List Char` (Python slicing/indexing is per
character), unbounded Python ints as `Nat`/`Int`, and functions that can
raise as `Except`-valued functions.  Logging calls are modelled by counting
the warnings a call emits.
-/
import Mathlib

open List

namespace Zipkin

/-- Length of `format(n, "b")`, the binary-digit string Python renders for a
nonnegative integer: `0` renders as `"0"` (length 1); a positive value has
`Nat.size n` digits. -/
def bitsLength (n : Nat) : Nat := max 1 (Nat.size n)

/-- `ThriftEncoder.encode_span_id` (identical in both Thrift encoder files).
`bits = format(span_id, "b")`; if `len(bits) < 64` the id is returned
unchanged, otherwise `int(bits[-63:], 2)` keeps the low 63 bits and one
truncation warning is logged.  The second component counts logged warnings. -/
def encode_span_id (span_id : Nat) : Nat × Nat :=
  if bitsLength span_id < 64 then
    (span_id, 0)
  else
    (span_id % 2 ^ 63, 1)

/-- `ThriftEncoder.encode_trace_id` (identical in both Thrift encoder files).
`encoded_trace_id = int(bits[-63:], 2)` is the low 63 bits; when
`len(bits) > 63` the secondary field `encoded_trace_id_high =
int(bits[-126:-63], 2)` holds bits 63–125, and when `len(bits) > 126` one
truncation warning is logged.  Returns `((trace_id, trace_id_high), warnings)`
with `trace_id_high = none` when the high field is left unset. -/
def encode_trace_id (trace_id : Nat) : (Nat × Option Nat) × Nat :=
  let encoded_trace_id := trace_id % 2 ^ 63
  if 63 < bitsLength trace_id then
    let encoded_trace_id_high := trace_id / 2 ^ 63 % 2 ^ 63
    ((encoded_trace_id, some encoded_trace_id_high),
      if 126 < bitsLength trace_id then 1 else 0)
  else
    ((encoded_trace_id, none), 0)

/-- Reconstruction `(high <<< 63) ||| low` of a trace id from the two Thrift
fields, an absent high field counting as 0. -/
def reconstruct_trace_id (fields : Nat × Option Nat) : Nat :=
  ((fields.2.getD 0) <<< 63) ||| fields.1

/-- `Encoder._nsec_to_usec_round` (exposed as `nsec_to_usec_round` on the
Thrift encoders): `(nsec + 500) // 10 ** 3`. -/
def nsec_to_usec_round (nsec : Nat) : Nat :=
  (nsec + 500) / 10 ^ 3

/-- `DEFAULT_MAX_TAG_VALUE_LENGTH` module constant. -/
def DEFAULT_MAX_TAG_VALUE_LENGTH : Int := 128

/-- Python `x or d` for `x : Optional[int]`: returns `d` when `x` is falsy,
i.e. when `x` is `None` or the integer `0`. -/
def pyOrInt (x : Option Int) (d : Int) : Int :=
  match x with
  | none => d
  | some v => if v = 0 then d else v

/-- `Encoder.__init__`: `self.max_tag_value_length = max_tag_value_length or
DEFAULT_MAX_TAG_VALUE_LENGTH`. -/
def encoder_init_max_tag_value_length (max_tag_value_length : Option Int) : Int :=
  pyOrInt max_tag_value_length DEFAULT_MAX_TAG_VALUE_LENGTH

/-- A value of a span/resource attribute dict as dispatched by
`Encoder._extract_tags_from_dict`.  Numeric (`int`/`bool`/`float`) values are
string-converted by the source; the embedding carries that rendered string
(`str`), since no claim depends on number-to-string rendering itself.  Any
other type is unsupported (logged and skipped). -/
inductive TagValue where
  | str (s : List Char)
  | num (rendered : List Char)
  | unsupported
deriving DecidableEq, Repr

/-- The string a tag value contributes, `none` for unsupported types. -/
def tagValueString : TagValue → Option (List Char)
  | .str s => some s
  | .num rendered => some rendered
  | .unsupported => none

/-- `Encoder._extract_tags_from_dict`: each dict entry is string-converted
(unsupported types are warned about and skipped), and the value is cut to
`value[:max_tag_value_length]` when `self.max_tag_value_length > 0`.
Dict keys are unique and iterated in insertion order, so the result is the
entry list in order. -/
def extract_tags_from_dict (max_tag_value_length : Int)
    (tags_dict : List (List Char × TagValue)) : List (List Char × List Char) :=
  tags_dict.foldr
    (fun kv tags =>
      match tagValueString kv.2 with
      | none => tags
      | some value =>
          (kv.1,
            if 0 < max_tag_value_length then
              value.take max_tag_value_length.toNat
            else value) :: tags)
    []

end Zipkin

namespace Grouping

/-!
The Resource → InstrumentationScope → records grouping loop, textually
duplicated in `_encode_resource_spans` (span/protobuf.py, first loop) and
`_encode_resource_metrics` (metric/protobuf.py, first loop):

    if sdk_resource not in groups.keys():
        groups[sdk_resource] = {sdk_instrumentation: [record]}
    elif sdk_instrumentation not in groups[sdk_resource].keys():
        groups[sdk_resource][sdk_instrumentation] = [record]
    else:
        groups[sdk_resource][sdk_instrumentation].append(record)

followed by a flattening loop over `groups.items()`.  Python dicts keyed by
structural equality and preserving insertion order are embedded as
association lists with append-at-end insertion; the grouping is stated
generically over the record type `α` with key projections `fr` (resource of
a record) and `fs` (scope of a record).
-/

variable {ρ σ α : Type} [DecidableEq ρ] [DecidableEq σ]

/-- Insert a record into the scope-keyed inner dict: append to the existing
scope entry, or append a fresh `(scope, [record])` entry at the end. -/
def insertScope (s : σ) (x : α) : List (σ × List α) → List (σ × List α)
  | [] => [(s, [x])]
  | sc :: rest =>
      if s = sc.1 then (sc.1, sc.2 ++ [x]) :: rest
      else sc :: insertScope s x rest

/-- Insert a record into the resource-keyed outer dict. -/
def insertRecord (r : ρ) (s : σ) (x : α) :
    List (ρ × List (σ × List α)) → List (ρ × List (σ × List α))
  | [] => [(r, [(s, [x])])]
  | e :: rest =>
      if r = e.1 then (e.1, insertScope s x e.2) :: rest
      else e :: insertRecord r s x rest

/-- The grouping loop: single pass over the input records, inserting each
record under its resource key and, within it, its scope key. -/
def groupByResourceScope (fr : α → ρ) (fs : α → σ) (l : List α) :
    List (ρ × List (σ × List α)) :=
  l.foldl (fun acc x => insertRecord (fr x) (fs x) x acc) []

/-- Records of one resource group, in emission order (the second,
flattening loop emits each scope entry's records in list order). -/
def flattenScopes (scopes : List (σ × List α)) : List α :=
  scopes.foldr (fun sc acc => sc.2 ++ acc) []

/-- All records emitted by the flattening loop, in emission order. -/
def flattenGrouped (g : List (ρ × List (σ × List α))) : List α :=
  g.foldr (fun e acc => flattenScopes e.2 ++ acc) []

/-- Distinct elements of `l` in first-seen order, continuing from an
already-accumulated prefix `acc`. -/
def firstSeenFrom {β : Type} [DecidableEq β] (acc : List β) (l : List β) : List β :=
  l.foldl (fun a b => if b ∈ a then a else a ++ [b]) acc

/-- Distinct elements of `l` in first-seen order. -/
def firstSeen {β : Type} [DecidableEq β] (l : List β) : List β :=
  firstSeenFrom [] l

/-- The scope-keyed inner dict of resource `r` in a grouped structure
(`[]` when `r` has no group). -/
def resScopes (g : List (ρ × List (σ × List α))) (r : ρ) : List (σ × List α) :=
  match g.find? (fun e => decide (e.1 = r)) with
  | none => []
  | some e => e.2

end Grouping

namespace Otlp

/-- Python values of span/record attributes as dispatched by
`_encode_key_value` (encoder/protobuf.py).  In the host language `bool` is a
subclass of `int` and `str` is a `Sequence`; the `isinstance` tests below
reflect that.  A float is carried as its IEEE-754 bit pattern, opaquely: no
claim depends on float arithmetic.  `other` stands for any value of a type
outside the dispatched ones. -/
inductive PyValue where
  | bool (b : Bool)
  | str (s : List Char)
  | int (i : Int)
  | float (bits : Nat)
  | seq (elems : List PyValue)
  | mapping (entries : List (List Char × PyValue))
  | other

/-- `isinstance(value, bool)`. -/
def isinstance_bool : PyValue → Bool
  | .bool _ => true
  | _ => false

/-- `isinstance(value, str)`. -/
def isinstance_str : PyValue → Bool
  | .str _ => true
  | _ => false

/-- `isinstance(value, int)`: also true for booleans, since `bool` is a
subclass of `int` in the host language. -/
def isinstance_int : PyValue → Bool
  | .int _ => true
  | .bool _ => true
  | _ => false

/-- `isinstance(value, float)`. -/
def isinstance_float : PyValue → Bool
  | .float _ => true
  | _ => false

/-- `isinstance(value, abc.Sequence)`: also true for strings, since `str`
is registered as a `Sequence` in the host language. -/
def isinstance_sequence : PyValue → Bool
  | .seq _ => true
  | .str _ => true
  | _ => false

/-- `isinstance(value, abc.Mapping)`. -/
def isinstance_mapping : PyValue → Bool
  | .mapping _ => true
  | _ => false

/-- Payload projections for the guarded branches of `_encode_key_value`;
each is only applied after the corresponding `isinstance` test succeeded,
so the fallback arms are unreachable there. -/
def pyBool : PyValue → Bool
  | .bool b => b
  | _ => false

def pyStr : PyValue → List Char
  | .str s => s
  | _ => []

def pyInt : PyValue → Int
  | .int i => i
  | .bool b => if b then 1 else 0
  | _ => 0

def pyFloatBits : PyValue → Nat
  | .float bits => bits
  | _ => 0

def pySeq : PyValue → List PyValue
  | .seq elems => elems
  | _ => []

def pyMapping : PyValue → List (List Char × PyValue)
  | .mapping entries => entries
  | _ => []

/-- Errors raised by the protobuf encoders. -/
inductive EncodeError where
  | invalidType (value : PyValue)
  | attributeError
  | minMaxSumCountNotSupported
  | histogramNotSupported

/-- The `AnyValue` wire record. -/
inductive PB2AnyValue where
  | bool_value (b : Bool)
  | string_value (s : List Char)
  | int_value (i : Int)
  | double_value (bits : Nat)
  | array_value (elems : List PyValue)
  | kvlist_value (entries : List (List Char × PyValue))

/-- `_encode_key_value` (encoder/protobuf.py): closed `isinstance` dispatch
in source order — bool, str, int, float, Sequence, Mapping — raising
`Exception("Invalid type ...")` for anything else. -/
def _encode_key_value (key : List Char) (value : PyValue) :
    Except EncodeError (List Char × PB2AnyValue) :=
  if isinstance_bool value then
    .ok (key, .bool_value (pyBool value))
  else if isinstance_str value then
    .ok (key, .string_value (pyStr value))
  else if isinstance_int value then
    .ok (key, .int_value (pyInt value))
  else if isinstance_float value then
    .ok (key, .double_value (pyFloatBits value))
  else if isinstance_sequence value then
    .ok (key, .array_value (pySeq value))
  else if isinstance_mapping value then
    .ok (key, .kvlist_value (pyMapping value))
  else
    .error (.invalidType value)

/-- Typed value of a Resource attribute (data model §3: bool/int/float/
string), with structural equality — Resources are grouping keys. -/
inductive AttrValue where
  | bool (b : Bool)
  | int (i : Int)
  | float (bits : Nat)
  | str (s : List Char)
deriving DecidableEq

/-- The Python value a Resource attribute carries. -/
def AttrValue.toPyValue : AttrValue → PyValue
  | .bool b => .bool b
  | .int i => .int i
  | .float bits => .float bits
  | .str s => .str s

/-- An SDK Resource: attribute mapping in insertion order, compared
structurally. -/
def Resource : Type := List (List Char × AttrValue)

instance : DecidableEq Resource := by
  unfold Resource
  infer_instance

/-- `_encode_resource`: encodes each attribute, catching the per-attribute
exception (`logger.exception`) and skipping the attribute. -/
def _encode_resource (sdk_resource : Resource) : List (List Char × PB2AnyValue) :=
  sdk_resource.foldr
    (fun kv acc =>
      match _encode_key_value kv.1 kv.2.toPyValue with
      | .ok kv' => kv' :: acc
      | .error _ => acc)
    []

/-- An SDK InstrumentationInfo (instrumentation scope): `(name, version)`. -/
structure InstrumentationInfo where
  name : List Char
  version : List Char
deriving DecidableEq

/-- The Python value handed to `_encode_instrumentation_library`, and used
as the inner grouping key: either an `InstrumentationInfo`, the Python
`None`, or the Python string `"None"` (the span path builds the key with
`sdk_span.instrumentation_info or "None"`). -/
inductive PyScopeArg where
  | pyNone
  | info (i : InstrumentationInfo)
  | strNone
deriving DecidableEq

/-- `_encode_instrumentation_library` (encoder/protobuf.py): `None` yields
an empty `InstrumentationLibrary()` (empty name and version); otherwise the
function reads `.name` and `.version` off the argument.  Passing the string
`"None"` therefore raises `AttributeError` — a `str` has no attribute
`name`. -/
def _encode_instrumentation_library :
    PyScopeArg → Except EncodeError (List Char × List Char)
  | .pyNone => .ok ([], [])
  | .info i => .ok (i.name, i.version)
  | .strNone => .error .attributeError

/-- Inner grouping key of the span path (span/protobuf.py:
`sdk_span.instrumentation_info or "None"`). -/
def spanScopeKey : Option InstrumentationInfo → PyScopeArg
  | some i => .info i
  | none => .strNone

/-- Inner grouping key of the metric path (metric/protobuf.py:
`sdk_export_record.instrument.meter.instrumentation_info or None`). -/
def metricScopeKey : Option InstrumentationInfo → PyScopeArg
  | some i => .info i
  | none => .pyNone

/-- An SDK span as consumed by `_encode_resource_spans`: its Resource, its
optional instrumentation scope, and `body`, standing for the remaining span
fields.  `_encode_span` (ids, kind, timestamps, events, links, status) is
injective plumbing orthogonal to the grouping/scope behaviour verified
here; the encoded protobuf span is represented by `body`. -/
structure SDKSpan (β : Type) where
  resource : Resource
  instrumentation_info : Option InstrumentationInfo
  body : β

/-- The `InstrumentationLibrarySpans` wire record. -/
structure PB2InstrumentationLibrarySpans (β : Type) where
  instrumentation_library : List Char × List Char
  spans : List β

/-- The `ResourceSpans` wire record. -/
structure PB2ResourceSpans (β : Type) where
  resource : List (List Char × PB2AnyValue)
  instrumentation_library_spans : List (PB2InstrumentationLibrarySpans β)

/-- `_encode_resource_spans` (span/protobuf.py): group the spans by
Resource, then by the `instrumentation_info or "None"` key, then emit one
`ResourceSpans` per resource with one `InstrumentationLibrarySpans` per
scope key.  An exception raised while encoding a scope key (the
`AttributeError` of the `"None"` string) propagates out of the encode. -/
def _encode_resource_spans {β : Type} (sdk_spans : List (SDKSpan β)) :
    Except EncodeError (List (PB2ResourceSpans β)) := do
  let grouped := Grouping.groupByResourceScope
    (fun s : SDKSpan β => s.resource)
    (fun s => spanScopeKey s.instrumentation_info) sdk_spans
  grouped.mapM (fun e => do
    let ils ← e.2.mapM (fun sc => do
      let il ← _encode_instrumentation_library sc.1
      pure { instrumentation_library := il,
             spans := sc.2.map (fun s => s.body)
             : PB2InstrumentationLibrarySpans β })
    pure { resource := _encode_resource e.1,
           instrumentation_library_spans := ils
           : PB2ResourceSpans β })

/-- Instrument kinds dispatched by `_encode_metric` (closed set per the
data model). -/
inductive InstrumentKind where
  | counter
  | upDownCounter
  | sumObserver
  | upDownSumObserver
  | valueObserver
  | valueRecorder
deriving DecidableEq

/-- `instrument.value_type`: selects the Int vs Double wire-message family
(the two families are structurally identical). -/
inductive ValueType where
  | int
  | float
deriving DecidableEq

/-- Aggregator kinds dispatched by `_get_data_points` (closed set: the five
SDK aggregator classes named in the source). -/
inductive AggregatorKind where
  | sumAggregator
  | minMaxSumCount
  | histogram
  | lastValue
  | valueObserverAggregator
deriving DecidableEq

/-- An SDK aggregator at export time.  `checkpoint` is the scalar checkpoint
read for Sum/LastValue aggregators; `checkpointLast` is the `.last` field of
the ValueObserverAggregator checkpoint tuple.  Values are carried as model
integers; `ValueType` picks the wire family. -/
structure Aggregator where
  kind : AggregatorKind
  checkpoint : Int
  checkpointLast : Int
  first_timestamp : Nat
  initial_checkpoint_timestamp : Nat
  last_update_timestamp : Nat
deriving DecidableEq

/-- An SDK metric instrument. -/
structure Instrument where
  name : List Char
  description : List Char
  unit : List Char
  kind : InstrumentKind
  value_type : ValueType
deriving DecidableEq

/-- An SDK `ExportRecord`.  Label keys/values are string-converted by the
encoder with `str(...)`; the model carries them as strings already. -/
structure ExportRecord where
  instrument : Instrument
  labels : List (List Char × List Char)
  aggregator : Aggregator
  resource : Resource
  instrumentation_info : Option InstrumentationInfo
deriving DecidableEq

/-- OTLP aggregation temporality. -/
inductive Temporality where
  | delta
  | cumulative
deriving DecidableEq

/-- An Int/Double data point wire record. -/
structure PB2DataPoint where
  labels : List (List Char × List Char)
  value : Int
  start_time_unix_nano : Nat
  time_unix_nano : Nat
deriving DecidableEq

/-- The data part of a `Metric` wire record: an `IntSum`/`DoubleSum` or an
`IntGauge`/`DoubleGauge`, the family chosen by `ValueType`. -/
inductive PB2MetricData where
  | sum (valueType : ValueType) (data_points : List PB2DataPoint)
      (aggregation_temporality : Temporality) (is_monotonic : Bool)
  | gauge (valueType : ValueType) (data_points : List PB2DataPoint)
deriving DecidableEq

/-- The `Metric` wire record. -/
structure PB2Metric where
  name : List Char
  description : List Char
  unit : List Char
  data : PB2MetricData
deriving DecidableEq

/-- `_get_data_points` (metric/protobuf.py): read the scalar off the
aggregator (raising for MinMaxSumCount and Histogram aggregators), pick
`start_time_unix_nano` from `first_timestamp` under cumulative temporality
and from `initial_checkpoint_timestamp` otherwise, and emit one data point
whose `time_unix_nano` is the aggregator's `last_update_timestamp`. -/
def _get_data_points (export_record : ExportRecord)
    (aggregation_temporality : Temporality) :
    Except EncodeError (List PB2DataPoint) := do
  let value ← match export_record.aggregator.kind with
    | .sumAggregator => pure export_record.aggregator.checkpoint
    | .minMaxSumCount => throw .minMaxSumCountNotSupported
    | .histogram => throw .histogramNotSupported
    | .lastValue => pure export_record.aggregator.checkpoint
    | .valueObserverAggregator => pure export_record.aggregator.checkpointLast
  let start_time_unix_nano :=
    if aggregation_temporality = .cumulative then
      export_record.aggregator.first_timestamp
    else
      export_record.aggregator.initial_checkpoint_timestamp
  pure [{ labels := export_record.labels,
          value := value,
          start_time_unix_nano := start_time_unix_nano,
          time_unix_nano := export_record.aggregator.last_update_timestamp }]

/-- `_encode_metric` (metric/protobuf.py): instrument kind selects the wire
variant and derived fields — Sum with `is_monotonic=True` for Counter and
SumObserver, Sum with `is_monotonic=False` for UpDownCounter and
UpDownSumObserver (all four with CUMULATIVE temporality), Gauge (with DELTA
temporality for the data points) for ValueObserver; a ValueRecorder point
is skipped with a warning (`return None`).  The source's trailing `else:
return None` arm is unreachable over the closed instrument-kind set. -/
def _encode_metric (sdk_export_record : ExportRecord) :
    Except EncodeError (Option PB2Metric) := do
  match sdk_export_record.instrument.kind with
  | .counter =>
      let dps ← _get_data_points sdk_export_record .cumulative
      pure (some { name := sdk_export_record.instrument.name,
                   description := sdk_export_record.instrument.description,
                   unit := sdk_export_record.instrument.unit,
                   data := .sum sdk_export_record.instrument.value_type dps
                     .cumulative true })
  | .upDownCounter =>
      let dps ← _get_data_points sdk_export_record .cumulative
      pure (some { name := sdk_export_record.instrument.name,
                   description := sdk_export_record.instrument.description,
                   unit := sdk_export_record.instrument.unit,
                   data := .sum sdk_export_record.instrument.value_type dps
                     .cumulative false })
  | .sumObserver =>
      let dps ← _get_data_points sdk_export_record .cumulative
      pure (some { name := sdk_export_record.instrument.name,
                   description := sdk_export_record.instrument.description,
                   unit := sdk_export_record.instrument.unit,
                   data := .sum sdk_export_record.instrument.value_type dps
                     .cumulative true })
  | .upDownSumObserver =>
      let dps ← _get_data_points sdk_export_record .cumulative
      pure (some { name := sdk_export_record.instrument.name,
                   description := sdk_export_record.instrument.description,
                   unit := sdk_export_record.instrument.unit,
                   data := .sum sdk_export_record.instrument.value_type dps
                     .cumulative false })
  | .valueObserver =>
      let dps ← _get_data_points sdk_export_record .delta
      pure (some { name := sdk_export_record.instrument.name,
                   description := sdk_export_record.instrument.description,
                   unit := sdk_export_record.instrument.unit,
                   data := .gauge sdk_export_record.instrument.value_type dps })
  | .valueRecorder =>
      pure none

/-- The `InstrumentationLibraryMetrics` wire record. -/
structure PB2InstrumentationLibraryMetrics where
  instrumentation_library : List Char × List Char
  metrics : List PB2Metric

/-- The `ResourceMetrics` wire record. -/
structure PB2ResourceMetrics where
  resource : List (List Char × PB2AnyValue)
  instrumentation_library_metrics : List PB2InstrumentationLibraryMetrics

/-- `_encode_resource_metrics` (metric/protobuf.py): first loop encodes each
record (`continue` on a skipped ValueRecorder point, exceptions propagate)
and groups the encoded metrics by Resource then by the
`instrumentation_info or None` key; second loop emits one `ResourceMetrics`
per resource with one `InstrumentationLibraryMetrics` per scope key. -/
def _encode_resource_metrics (sdk_export_records : List ExportRecord) :
    Except EncodeError (List PB2ResourceMetrics) := do
  let encoded ← sdk_export_records.foldlM
    (fun acc r => do
      match ← _encode_metric r with
      | none => pure acc
      | some m => pure (acc ++ [(r, m)]))
    ([] : List (ExportRecord × PB2Metric))
  let grouped := Grouping.groupByResourceScope
    (fun p : ExportRecord × PB2Metric => p.1.resource)
    (fun p => metricScopeKey p.1.instrumentation_info) encoded
  grouped.mapM (fun e => do
    let ilms ← e.2.mapM (fun sc => do
      let il ← _encode_instrumentation_library sc.1
      pure { instrumentation_library := il,
             metrics := sc.2.map (fun p => p.2)
             : PB2InstrumentationLibraryMetrics })
    pure { resource := _encode_resource e.1,
           instrumentation_library_metrics := ilms
           : PB2ResourceMetrics })

end Otlp

namespace Otlp

/-- gRPC status codes (`grpc.StatusCode`). -/
inductive StatusCode where
  | ok
  | cancelled
  | unknown
  | invalidArgument
  | deadlineExceeded
  | notFound
  | alreadyExists
  | permissionDenied
  | resourceExhausted
  | failedPrecondition
  | aborted
  | outOfRange
  | unimplemented
  | internal
  | unavailable
  | dataLoss
  | unauthenticated
deriving DecidableEq

/-- `RETRYABLE_ERROR_CODES` (sender/grpc.py). -/
def RETRYABLE_ERROR_CODES : List StatusCode :=
  [.cancelled, .deadlineExceeded, .permissionDenied, .unauthenticated,
   .resourceExhausted, .aborted, .outOfRange, .unavailable, .dataLoss]

/-- `google.rpc` `RetryInfo.retry_delay`, decoded from the
`google.rpc.retryinfo-bin` trailing-metadata entry. -/
structure RetryDelay where
  seconds : Nat
  nanos : Nat
deriving DecidableEq

/-- Outcome of one `Export` RPC attempt: success, or an `RpcError` with a
status code and the optional retry-delay hint found in the trailing
metadata. -/
inductive RpcOutcome where
  | success
  | error (code : StatusCode) (retryInfo : Option RetryDelay)
deriving DecidableEq

/-- A `sleep` performed by the send loop: either the exact server-supplied
retry-delay hint (`retry_delay.seconds + retry_delay.nanos / 1e9`) or the
computed exponential-backoff delay in seconds. -/
inductive SleepAmount where
  | retryInfoHint (d : RetryDelay)
  | backoff (seconds : Nat)
deriving DecidableEq

/-- The value the generator `backoff.expo(max_value=900)` yields on its
`n`-th iteration: `2 ^ n` while below the ceiling, then the ceiling 900
forever (the library yields `factor * base ** n` with `factor=1`, `base=2`,
and yields `max_value` once the computed value reaches it; described in the
sender's comment as growing exponentially and then remaining constant). -/
def expoDelay (n : Nat) : Nat :=
  if 2 ^ n < 900 then 2 ^ n else 900

/-- The body of `GrpcSender.send` from its `n`-th loop iteration on, over an
abstract sequence of RPC outcomes (`outcomes k` is the result of the RPC
issued on iteration `k`).  Mirrors the source loop: give up with `False`
when the yielded delay reaches the 900 ceiling; return `True` on RPC
success; on a retryable status sleep the retry-info hint if present,
otherwise the backoff delay, and retry; treat an error with an `OK` status
as success; any other status returns `False` immediately.  Also returns the
list of sleeps performed. -/
def sendFrom (outcomes : Nat → RpcOutcome) (n : Nat) : Bool × List SleepAmount :=
  if h : expoDelay n = 900 then
    (false, [])
  else
    match outcomes n with
    | .success => (true, [])
    | .error code retryInfo =>
        if code ∈ RETRYABLE_ERROR_CODES then
          let sleep :=
            match retryInfo with
            | some d => SleepAmount.retryInfoHint d
            | none => SleepAmount.backoff (expoDelay n)
          let rest := sendFrom outcomes (n + 1)
          (rest.1, sleep :: rest.2)
        else if code = .ok then
          (true, [])
        else
          (false, [])
termination_by 10 - n
decreasing_by
  have h2 : 2 ^ n < 900 := by
    by_contra hc
    exact h (by unfold expoDelay; rw [if_neg hc])
  have h10 : n < 10 := by
    by_contra hn
    have : (2 : Nat) ^ 10 ≤ 2 ^ n := Nat.pow_le_pow_right (by norm_num) (by omega)
    omega
  omega

/-- `GrpcSender.send`: the loop starting at the first `expo` value. -/
def send (outcomes : Nat → RpcOutcome) : Bool × List SleepAmount :=
  sendFrom outcomes 0

end Otlp

namespace Zipkin

theorem bitsLength_lt_iff (n k : Nat) (hk : 0 < k) :
    bitsLength n < k + 1 ↔ n < 2 ^ k := by
  unfold bitsLength
  rw [max_lt_iff]
  constructor
  · intro h
    exact Nat.size_le.mp (Nat.lt_succ_iff.mp h.2)
  · intro h
    exact ⟨by omega, Nat.lt_succ_iff.mpr (Nat.size_le.mpr h)⟩

theorem lt_bitsLength_iff (n k : Nat) (hk : 0 < k) :
    k < bitsLength n ↔ 2 ^ k ≤ n := by
  unfold bitsLength
  rw [lt_max_iff]
  constructor
  · rintro (h | h)
    · omega
    · exact Nat.lt_size.mp h
  · intro h
    exact Or.inr (Nat.lt_size.mpr h)

theorem reconstruct_some (hi lo : Nat) (h : lo < 2 ^ 63) :
    reconstruct_trace_id (lo, some hi) = 2 ^ 63 * hi + lo := by
  unfold reconstruct_trace_id
  simp only [Option.getD_some]
  rw [Nat.shiftLeft_eq, Nat.mul_comm hi (2 ^ 63)]
  exact (Nat.mul_add_lt_is_or h hi).symm

theorem reconstruct_none (lo : Nat) :
    reconstruct_trace_id (lo, none) = lo := by
  unfold reconstruct_trace_id
  simp only [Option.getD_none]
  rw [Nat.zero_shiftLeft]
  exact Nat.zero_or lo

end Zipkin

/-- C1: for every trace id `t` with `t ≤ 2 ^ 126 - 1`, `encode_trace_id t`
yields fields whose reconstruction `(high <<< 63) ||| low` (absent high
counting as 0) equals `t`; for `t ≥ 2 ^ 126` the reconstruction equals `t`
masked to its low 126 bits. -/
theorem C1_encode_trace_id_reconstruct (t : Nat) :
    (t ≤ 2 ^ 126 - 1 →
      Zipkin.reconstruct_trace_id (Zipkin.encode_trace_id t).1 = t) ∧
    (2 ^ 126 ≤ t →
      Zipkin.reconstruct_trace_id (Zipkin.encode_trace_id t).1 = t % 2 ^ 126) := by
  have h63 := Zipkin.lt_bitsLength_iff t 63 (by norm_num)
  have hlo : t % 2 ^ 63 < 2 ^ 63 := Nat.mod_lt _ (by norm_num)
  by_cases hc : 63 < Zipkin.bitsLength t
  · have henc : (Zipkin.encode_trace_id t).1 = (t % 2 ^ 63, some (t / 2 ^ 63 % 2 ^ 63)) := by
      unfold Zipkin.encode_trace_id
      rw [if_pos hc]
    rw [henc, Zipkin.reconstruct_some _ _ hlo]
    constructor
    · intro h
      have ht : t < 2 ^ 126 := by
        have : (0 : Nat) < 2 ^ 126 := by positivity
        omega
      have hdiv : t / 2 ^ 63 < 2 ^ 63 := by
        apply Nat.div_lt_of_lt_mul
        calc t < 2 ^ 126 := ht
        _ = 2 ^ 63 * 2 ^ 63 := by rw [← pow_add]
      rw [Nat.mod_eq_of_lt hdiv]
      exact Nat.div_add_mod t (2 ^ 63)
    · intro _
      have h126 : (2 : Nat) ^ 126 = 2 ^ 63 * 2 ^ 63 := by rw [← pow_add]
      rw [h126, Nat.mod_mul]
      ring
  · have henc : (Zipkin.encode_trace_id t).1 = (t % 2 ^ 63, none) := by
      unfold Zipkin.encode_trace_id
      rw [if_neg hc]
    have ht : t < 2 ^ 63 := by
      rcases Nat.lt_or_ge t (2 ^ 63) with h | h
      · exact h
      · exact absurd (h63.mpr h) hc
    rw [henc, Zipkin.reconstruct_none, Nat.mod_eq_of_lt ht]
    constructor
    · intro _
      rfl
    · intro h
      have : (2 : Nat) ^ 63 < 2 ^ 126 := by norm_num
      omega

theorem C1_witness :
    ((3 : Nat) ≤ 2 ^ 126 - 1 ∧
      Zipkin.reconstruct_trace_id (Zipkin.encode_trace_id 3).1 = 3) ∧
    (2 ^ 126 ≤ (2 ^ 126 + 7 : Nat) ∧
      Zipkin.reconstruct_trace_id (Zipkin.encode_trace_id (2 ^ 126 + 7)).1
        = (2 ^ 126 + 7) % 2 ^ 126) :=
  ⟨⟨by norm_num, (C1_encode_trace_id_reconstruct 3).1 (by norm_num)⟩,
    ⟨by norm_num,
      (C1_encode_trace_id_reconstruct (2 ^ 126 + 7)).2 (by norm_num)⟩⟩

/-- C4: `encode_span_id` returns a span id unchanged when it fits in 63 bits,
and otherwise returns its low 63 bits while logging exactly one truncation
warning; a span id of exactly `2 ^ 63` encodes to 0 with exactly one
warning. -/
theorem C4_encode_span_id (s : Nat) :
    (s < 2 ^ 63 → Zipkin.encode_span_id s = (s, 0)) ∧
    (2 ^ 63 ≤ s → Zipkin.encode_span_id s = (s % 2 ^ 63, 1)) ∧
    Zipkin.encode_span_id (2 ^ 63) = (0, 1) := by
  have h64 : Zipkin.bitsLength s < 64 ↔ s < 2 ^ 63 :=
    Zipkin.bitsLength_lt_iff s 63 (by norm_num)
  have h64' : Zipkin.bitsLength (2 ^ 63) < 64 ↔ (2 ^ 63 : Nat) < 2 ^ 63 :=
    Zipkin.bitsLength_lt_iff (2 ^ 63) 63 (by norm_num)
  refine ⟨?_, ?_, ?_⟩
  · intro h
    unfold Zipkin.encode_span_id
    rw [if_pos (h64.mpr h)]
  · intro h
    unfold Zipkin.encode_span_id
    rw [if_neg (by omega : ¬ Zipkin.bitsLength s < 64)]
  · unfold Zipkin.encode_span_id
    rw [if_neg (by omega : ¬ Zipkin.bitsLength (2 ^ 63) < 64)]
    rw [Nat.mod_self]

theorem C4_witness :
    ((5 : Nat) < 2 ^ 63 ∧ Zipkin.encode_span_id 5 = (5, 0)) ∧
    ((2 : Nat) ^ 63 ≤ 2 ^ 63 + 1 ∧
      Zipkin.encode_span_id (2 ^ 63 + 1) = ((2 ^ 63 + 1) % 2 ^ 63, 1)) :=
  ⟨⟨by norm_num, (C4_encode_span_id 5).1 (by norm_num)⟩,
    ⟨by norm_num, (C4_encode_span_id (2 ^ 63 + 1)).2.1 (by norm_num)⟩⟩

/-- C5: the nanosecond-to-microsecond conversion for Zipkin timestamps is
round-half-up, `(n + 500) / 1000`; in particular 1500 ns maps to 2 µs and
1499 ns to 1 µs. -/
theorem C5_nsec_to_usec_round (n : Nat) :
    Zipkin.nsec_to_usec_round n = (n + 500) / 1000 ∧
    Zipkin.nsec_to_usec_round 1500 = 2 ∧
    Zipkin.nsec_to_usec_round 1499 = 1 := by
  refine ⟨?_, by decide, by decide⟩
  unfold Zipkin.nsec_to_usec_round
  norm_num

/-- C6 counterexample: the claim says a configured maximum of 0 disables
truncation; in the code `max_tag_value_length or DEFAULT_MAX_TAG_VALUE_LENGTH`
treats 0 as falsy, so 0 yields the default 128 and a 200-character tag value
is still truncated. -/
theorem C6_counterexample :
    Zipkin.extract_tags_from_dict
        (Zipkin.encoder_init_max_tag_value_length (some 0))
        [([('k' : Char)], Zipkin.TagValue.str (List.replicate 200 'a'))]
      = [([('k' : Char)], List.replicate 128 'a')] ∧
    Zipkin.extract_tags_from_dict
        (Zipkin.encoder_init_max_tag_value_length (some 0))
        [([('k' : Char)], Zipkin.TagValue.str (List.replicate 200 'a'))]
      ≠ [([('k' : Char)], List.replicate 200 'a')] := by
  have h1 : Zipkin.extract_tags_from_dict
      (Zipkin.encoder_init_max_tag_value_length (some 0))
      [([('k' : Char)], Zipkin.TagValue.str (List.replicate 200 'a'))]
      = [([('k' : Char)], List.replicate 128 'a')] := by
    unfold Zipkin.extract_tags_from_dict Zipkin.encoder_init_max_tag_value_length
      Zipkin.pyOrInt Zipkin.DEFAULT_MAX_TAG_VALUE_LENGTH
    simp [Zipkin.tagValueString, List.take_replicate]
  refine ⟨h1, ?_⟩
  intro h
  rw [h1] at h
  injection h with hhead _
  have h2 := congrArg (fun p => p.2.length) hhead
  simp [List.length_replicate] at h2

/-- C6 (amended): string tag values are truncated to the configured maximum
length; the maximum defaults to 128 when absent, and a configured 0 also
falls back to the default 128 (truncation still applies); only a negative
maximum disables truncation. -/
theorem C6_max_tag_value_length (k s : List Char) (v : Int) :
    Zipkin.encoder_init_max_tag_value_length none = 128 ∧
    Zipkin.encoder_init_max_tag_value_length (some 0) = 128 ∧
    Zipkin.extract_tags_from_dict (Zipkin.encoder_init_max_tag_value_length none)
        [(k, Zipkin.TagValue.str s)] = [(k, s.take 128)] ∧
    (0 < v →
      Zipkin.extract_tags_from_dict (Zipkin.encoder_init_max_tag_value_length (some v))
        [(k, Zipkin.TagValue.str s)] = [(k, s.take v.toNat)]) ∧
    (v < 0 →
      Zipkin.extract_tags_from_dict (Zipkin.encoder_init_max_tag_value_length (some v))
        [(k, Zipkin.TagValue.str s)] = [(k, s)]) := by
  refine ⟨rfl, rfl, ?_, ?_, ?_⟩
  · unfold Zipkin.extract_tags_from_dict Zipkin.encoder_init_max_tag_value_length
      Zipkin.pyOrInt Zipkin.DEFAULT_MAX_TAG_VALUE_LENGTH
    simp [Zipkin.tagValueString]
  · intro hv
    have hinit : Zipkin.encoder_init_max_tag_value_length (some v) = v := by
      show (if v = 0 then Zipkin.DEFAULT_MAX_TAG_VALUE_LENGTH else v) = v
      exact if_neg (by omega)
    rw [hinit]
    unfold Zipkin.extract_tags_from_dict
    simp [Zipkin.tagValueString, hv]
  · intro hv
    have hinit : Zipkin.encoder_init_max_tag_value_length (some v) = v := by
      show (if v = 0 then Zipkin.DEFAULT_MAX_TAG_VALUE_LENGTH else v) = v
      exact if_neg (by omega)
    have hneg : ¬ (0 : Int) < v := by omega
    rw [hinit]
    unfold Zipkin.extract_tags_from_dict
    simp [Zipkin.tagValueString, hneg]

theorem C6_witness :
    ((0 : Int) < 5 ∧
      Zipkin.extract_tags_from_dict (Zipkin.encoder_init_max_tag_value_length (some 5))
        [([('k' : Char)], Zipkin.TagValue.str (List.replicate 9 'a'))]
        = [([('k' : Char)], (List.replicate 9 'a').take (Int.toNat 5))]) ∧
    ((-3 : Int) < 0 ∧
      Zipkin.extract_tags_from_dict (Zipkin.encoder_init_max_tag_value_length (some (-3)))
        [([('k' : Char)], Zipkin.TagValue.str (List.replicate 9 'a'))]
        = [([('k' : Char)], List.replicate 9 'a')]) :=
  ⟨⟨by norm_num,
      (C6_max_tag_value_length [('k' : Char)] (List.replicate 9 'a') 5).2.2.2.1
        (by norm_num)⟩,
    ⟨by norm_num,
      (C6_max_tag_value_length [('k' : Char)] (List.replicate 9 'a') (-3)).2.2.2.2
        (by norm_num)⟩⟩

namespace Grouping

variable {ρ σ α : Type} [DecidableEq ρ] [DecidableEq σ]

theorem flattenScopes_insertScope (s : σ) (x : α) (scopes : List (σ × List α)) :
    flattenScopes (insertScope s x scopes) ~ x :: flattenScopes scopes := by
  induction scopes with
  | nil =>
      simp [insertScope, flattenScopes]
  | cons sc rest ih =>
      by_cases h : s = sc.1
      · rw [insertScope, if_pos h]
        show (sc.2 ++ [x]) ++ flattenScopes rest ~ x :: (sc.2 ++ flattenScopes rest)
        rw [List.append_assoc]
        exact List.perm_middle
      · rw [insertScope, if_neg h]
        show sc.2 ++ flattenScopes (insertScope s x rest) ~ x :: (sc.2 ++ flattenScopes rest)
        calc sc.2 ++ flattenScopes (insertScope s x rest)
            ~ sc.2 ++ (x :: flattenScopes rest) := List.Perm.append_left _ ih
          _ ~ x :: (sc.2 ++ flattenScopes rest) := List.perm_middle

theorem flattenGrouped_insertRecord (r : ρ) (s : σ) (x : α)
    (g : List (ρ × List (σ × List α))) :
    flattenGrouped (insertRecord r s x g) ~ x :: flattenGrouped g := by
  induction g with
  | nil =>
      simp [insertRecord, flattenGrouped, flattenScopes, insertScope]
  | cons e rest ih =>
      by_cases h : r = e.1
      · rw [insertRecord, if_pos h]
        show flattenScopes (insertScope s x e.2) ++ flattenGrouped rest
            ~ x :: (flattenScopes e.2 ++ flattenGrouped rest)
        calc flattenScopes (insertScope s x e.2) ++ flattenGrouped rest
            ~ (x :: flattenScopes e.2) ++ flattenGrouped rest :=
              List.Perm.append_right _ (flattenScopes_insertScope s x e.2)
          _ = x :: (flattenScopes e.2 ++ flattenGrouped rest) := rfl
      · rw [insertRecord, if_neg h]
        show flattenScopes e.2 ++ flattenGrouped (insertRecord r s x rest)
            ~ x :: (flattenScopes e.2 ++ flattenGrouped rest)
        calc flattenScopes e.2 ++ flattenGrouped (insertRecord r s x rest)
            ~ flattenScopes e.2 ++ (x :: flattenGrouped rest) := List.Perm.append_left _ ih
          _ ~ x :: (flattenScopes e.2 ++ flattenGrouped rest) := List.perm_middle

theorem flattenGrouped_foldl (fr : α → ρ) (fs : α → σ) (l : List α) :
    ∀ acc, flattenGrouped (l.foldl (fun a x => insertRecord (fr x) (fs x) x a) acc)
      ~ flattenGrouped acc ++ l := by
  induction l with
  | nil =>
      intro acc
      simp
  | cons x l ih =>
      intro acc
      calc flattenGrouped ((x :: l).foldl (fun a y => insertRecord (fr y) (fs y) y a) acc)
          = flattenGrouped (l.foldl (fun a y => insertRecord (fr y) (fs y) y a)
              (insertRecord (fr x) (fs x) x acc)) := rfl
        _ ~ flattenGrouped (insertRecord (fr x) (fs x) x acc) ++ l := ih _
        _ ~ (x :: flattenGrouped acc) ++ l :=
            List.Perm.append_right _ (flattenGrouped_insertRecord _ _ _ _)
        _ = x :: (flattenGrouped acc ++ l) := rfl
        _ ~ flattenGrouped acc ++ x :: l := List.perm_middle.symm

theorem insertScope_keys (s : σ) (x : α) (scopes : List (σ × List α)) :
    (insertScope s x scopes).map Prod.fst =
      if s ∈ scopes.map Prod.fst then scopes.map Prod.fst
      else scopes.map Prod.fst ++ [s] := by
  induction scopes with
  | nil =>
      simp [insertScope]
  | cons sc rest ih =>
      by_cases h : s = sc.1
      · rw [insertScope, if_pos h]
        simp [h]
      · rw [insertScope, if_neg h]
        by_cases hm : s ∈ rest.map Prod.fst
        · simp [List.mem_cons, h, hm, ih]
        · simp [List.mem_cons, h, hm, ih]

theorem insertRecord_keys (r : ρ) (s : σ) (x : α)
    (g : List (ρ × List (σ × List α))) :
    (insertRecord r s x g).map Prod.fst =
      if r ∈ g.map Prod.fst then g.map Prod.fst
      else g.map Prod.fst ++ [r] := by
  induction g with
  | nil =>
      simp [insertRecord]
  | cons e rest ih =>
      by_cases h : r = e.1
      · rw [insertRecord, if_pos h]
        simp [h]
      · rw [insertRecord, if_neg h]
        by_cases hm : r ∈ rest.map Prod.fst
        · simp [List.mem_cons, h, hm, ih]
        · simp [List.mem_cons, h, hm, ih]

theorem group_keys_foldl (fr : α → ρ) (fs : α → σ) (l : List α) :
    ∀ acc, (l.foldl (fun a x => insertRecord (fr x) (fs x) x a) acc).map Prod.fst
      = firstSeenFrom (acc.map Prod.fst) (l.map fr) := by
  induction l with
  | nil =>
      intro acc
      rfl
  | cons x l ih =>
      intro acc
      show (l.foldl (fun a y => insertRecord (fr y) (fs y) y a)
          (insertRecord (fr x) (fs x) x acc)).map Prod.fst
        = firstSeenFrom (acc.map Prod.fst) (fr x :: l.map fr)
      rw [ih]
      show firstSeenFrom ((insertRecord (fr x) (fs x) x acc).map Prod.fst) (l.map fr)
          = firstSeenFrom
              (if fr x ∈ acc.map Prod.fst then acc.map Prod.fst
                else acc.map Prod.fst ++ [fr x]) (l.map fr)
      rw [insertRecord_keys]

theorem firstSeenFrom_nodup {β : Type} [DecidableEq β] (l : List β) :
    ∀ acc : List β, acc.Nodup → (firstSeenFrom acc l).Nodup := by
  induction l with
  | nil =>
      intro acc h
      exact h
  | cons b l ih =>
      intro acc h
      show (firstSeenFrom (if b ∈ acc then acc else acc ++ [b]) l).Nodup
      by_cases hm : b ∈ acc
      · rw [if_pos hm]
        exact ih acc h
      · rw [if_neg hm]
        apply ih
        have hperm : (acc ++ [b]) ~ b :: acc := List.perm_append_singleton b acc
        rw [hperm.nodup_iff]
        exact List.nodup_cons.mpr ⟨hm, h⟩

theorem insertScope_wf (Q : α → σ → Prop) (s : σ) (x : α)
    (scopes : List (σ × List α)) (hx : Q x s)
    (h : ∀ sc ∈ scopes, ∀ y ∈ sc.2, Q y sc.1) :
    ∀ sc ∈ insertScope s x scopes, ∀ y ∈ sc.2, Q y sc.1 := by
  induction scopes with
  | nil =>
      intro sc hsc y hy
      rw [insertScope] at hsc
      rcases List.mem_singleton.mp hsc with rfl
      rcases List.mem_singleton.mp hy with rfl
      exact hx
  | cons sc0 rest ih =>
      by_cases hcase : s = sc0.1
      · rw [insertScope, if_pos hcase]
        intro sc hsc y hy
        rcases List.mem_cons.mp hsc with rfl | hmem
        · rcases List.mem_append.mp hy with hmem2 | hmem2
          · exact h sc0 (List.mem_cons_self _ _) y hmem2
          · rcases List.mem_singleton.mp hmem2 with rfl
            rw [← hcase]
            exact hx
        · exact h sc (List.mem_cons_of_mem _ hmem) y hy
      · rw [insertScope, if_neg hcase]
        intro sc hsc y hy
        rcases List.mem_cons.mp hsc with rfl | hmem
        · exact h sc (List.mem_cons_self _ _) y hy
        · exact ih (fun sc' hsc' => h sc' (List.mem_cons_of_mem _ hsc')) sc hmem y hy

theorem insertRecord_wf (fr : α → ρ) (fs : α → σ) (x : α)
    (g : List (ρ × List (σ × List α)))
    (h : ∀ e ∈ g, ∀ sc ∈ e.2, ∀ y ∈ sc.2, fr y = e.1 ∧ fs y = sc.1) :
    ∀ e ∈ insertRecord (fr x) (fs x) x g, ∀ sc ∈ e.2, ∀ y ∈ sc.2,
      fr y = e.1 ∧ fs y = sc.1 := by
  induction g with
  | nil =>
      intro e he sc hsc y hy
      rw [insertRecord] at he
      rcases List.mem_singleton.mp he with rfl
      rcases List.mem_singleton.mp hsc with rfl
      rcases List.mem_singleton.mp hy with rfl
      exact ⟨rfl, rfl⟩
  | cons e0 rest ih =>
      by_cases hcase : fr x = e0.1
      · rw [insertRecord, if_pos hcase]
        intro e he sc hsc y hy
        rcases List.mem_cons.mp he with rfl | hmem
        · have hscope := insertScope_wf (fun y s => fs y = s ∧ fr y = e0.1)
            (fs x) x e0.2 ⟨rfl, hcase⟩
            (fun sc' hsc' y' hy' =>
              ⟨(h e0 (List.mem_cons_self _ _) sc' hsc' y' hy').2,
                (h e0 (List.mem_cons_self _ _) sc' hsc' y' hy').1⟩)
            sc hsc y hy
          exact ⟨hscope.2, hscope.1⟩
        · exact h e (List.mem_cons_of_mem _ hmem) sc hsc y hy
      · rw [insertRecord, if_neg hcase]
        intro e he sc hsc y hy
        rcases List.mem_cons.mp he with rfl | hmem
        · exact h e (List.mem_cons_self _ _) sc hsc y hy
        · exact ih (fun e' he' => h e' (List.mem_cons_of_mem _ he')) e hmem sc hsc y hy

theorem group_wf_foldl (fr : α → ρ) (fs : α → σ) (l : List α) :
    ∀ acc, (∀ e ∈ acc, ∀ sc ∈ e.2, ∀ y ∈ sc.2, fr y = e.1 ∧ fs y = sc.1) →
      ∀ e ∈ l.foldl (fun a x => insertRecord (fr x) (fs x) x a) acc,
        ∀ sc ∈ e.2, ∀ y ∈ sc.2, fr y = e.1 ∧ fs y = sc.1 := by
  induction l with
  | nil =>
      intro acc hacc
      exact hacc
  | cons x l ih =>
      intro acc hacc
      exact ih _ (insertRecord_wf fr fs x acc hacc)

end Grouping

namespace Grouping

variable {ρ σ α : Type} [DecidableEq ρ] [DecidableEq σ]

theorem firstSeenFrom_cons {β : Type} [DecidableEq β] (a : List β) (b : β) (l : List β) :
    firstSeenFrom a (b :: l) = firstSeenFrom (if b ∈ a then a else a ++ [b]) l :=
  rfl

theorem resScopes_nil (r : ρ) :
    resScopes ([] : List (ρ × List (σ × List α))) r = [] :=
  rfl

theorem resScopes_cons (e : ρ × List (σ × List α))
    (rest : List (ρ × List (σ × List α))) (r : ρ) :
    resScopes (e :: rest) r = if e.1 = r then e.2 else resScopes rest r := by
  by_cases h : e.1 = r
  · simp [resScopes, List.find?, h]
  · simp [resScopes, List.find?, h]

theorem resScopes_insertRecord (q : ρ) (s : σ) (x : α)
    (g : List (ρ × List (σ × List α))) (r : ρ) :
    resScopes (insertRecord q s x g) r =
      if q = r then insertScope s x (resScopes g r) else resScopes g r := by
  induction g with
  | nil =>
      by_cases h : q = r
      · simp [insertRecord, resScopes, List.find?, insertScope, h]
      · simp [insertRecord, resScopes, List.find?, h]
  | cons e rest ih =>
      by_cases h : q = e.1
      · rw [insertRecord, if_pos h]
        rw [resScopes_cons, resScopes_cons]
        by_cases h2 : e.1 = r
        · rw [if_pos h2, if_pos h2, if_pos (h.trans h2)]
        · rw [if_neg h2, if_neg h2, if_neg (fun hh => h2 (h.symm.trans hh))]
      · rw [insertRecord, if_neg h]
        rw [resScopes_cons, resScopes_cons]
        by_cases h2 : e.1 = r
        · rw [if_pos h2, if_pos h2, if_neg (fun hh => h (hh.trans h2.symm))]
        · rw [if_neg h2, if_neg h2]
          exact ih

theorem group_resScopes_foldl (fr : α → ρ) (fs : α → σ) (l : List α) :
    ∀ (acc : List (ρ × List (σ × List α))) (r : ρ),
      (resScopes (l.foldl (fun a x => insertRecord (fr x) (fs x) x a) acc) r).map Prod.fst
        = firstSeenFrom ((resScopes acc r).map Prod.fst)
            ((l.filter (fun x => decide (fr x = r))).map fs) := by
  induction l with
  | nil =>
      intro acc r
      rfl
  | cons x l ih =>
      intro acc r
      show (resScopes (l.foldl (fun a y => insertRecord (fr y) (fs y) y a)
          (insertRecord (fr x) (fs x) x acc)) r).map Prod.fst = _
      rw [ih, resScopes_insertRecord]
      by_cases h : fr x = r
      · rw [if_pos h, insertScope_keys]
        have hfil : List.filter (fun y => decide (fr y = r)) (x :: l)
            = x :: List.filter (fun y => decide (fr y = r)) l := by
          simp [List.filter_cons, h]
        rw [hfil, List.map_cons, firstSeenFrom_cons]
      · rw [if_neg h]
        have hfil : List.filter (fun y => decide (fr y = r)) (x :: l)
            = List.filter (fun y => decide (fr y = r)) l := by
          simp [List.filter_cons, h]
        rw [hfil]

end Grouping

/-- C2: grouping a batch by Resource then Scope and flattening emits every
input record exactly once (the flattened output is a permutation of the
input); two records land in the same resource group only when their resource
keys are equal (and in the same scope sublist only when their scope keys are
also equal); the groups list distinct resources in first-seen order, and
within each resource distinct scopes in first-seen order. -/
theorem C2_grouping {ρ σ α : Type} [DecidableEq ρ] [DecidableEq σ]
    (fr : α → ρ) (fs : α → σ) (l : List α) :
    List.Perm (Grouping.flattenGrouped (Grouping.groupByResourceScope fr fs l)) l ∧
    (∀ e ∈ Grouping.groupByResourceScope fr fs l, ∀ sc ∈ e.2, ∀ x ∈ sc.2,
      fr x = e.1 ∧ fs x = sc.1) ∧
    (Grouping.groupByResourceScope fr fs l).map Prod.fst
      = Grouping.firstSeen (l.map fr) ∧
    ((Grouping.groupByResourceScope fr fs l).map Prod.fst).Nodup ∧
    (∀ r, (Grouping.resScopes (Grouping.groupByResourceScope fr fs l) r).map Prod.fst
        = Grouping.firstSeen ((l.filter (fun x => decide (fr x = r))).map fs)) ∧
    (∀ r, ((Grouping.resScopes (Grouping.groupByResourceScope fr fs l) r).map
        Prod.fst).Nodup) := by
  have hkeys : (Grouping.groupByResourceScope fr fs l).map Prod.fst
      = Grouping.firstSeen (l.map fr) :=
    Grouping.group_keys_foldl fr fs l []
  have hscopes : ∀ r,
      (Grouping.resScopes (Grouping.groupByResourceScope fr fs l) r).map Prod.fst
        = Grouping.firstSeen ((l.filter (fun x => decide (fr x = r))).map fs) :=
    fun r => Grouping.group_resScopes_foldl fr fs l [] r
  refine ⟨?_, ?_, hkeys, ?_, hscopes, ?_⟩
  · have h := Grouping.flattenGrouped_foldl fr fs l []
    simpa [Grouping.flattenGrouped] using h
  · exact Grouping.group_wf_foldl fr fs l [] (by intro e he; cases he)
  · rw [hkeys]
    exact Grouping.firstSeenFrom_nodup _ [] List.nodup_nil
  · intro r
    rw [hscopes r]
    exact Grouping.firstSeenFrom_nodup _ [] List.nodup_nil

theorem C2_witness :
    ((6 : Nat), [((7 : Nat), [(5 : Nat)])]) ∈
        Grouping.groupByResourceScope (fun x : Nat => x + 1) (fun x => x + 2) [5] ∧
    (5 : Nat) + 1 = 6 ∧ (5 : Nat) + 2 = 7 :=
  have h := (C2_grouping (fun x : Nat => x + 1) (fun x => x + 2) [5]).2.1
    (6, [(7, [5])]) (by decide) (7, [5]) (by decide) 5 (by decide)
  ⟨by decide, h.1, h.2⟩

/-- C10: in the closed dispatch of `_encode_key_value` the bool test runs
before the int test, so a boolean value encodes to `bool_value` even though
`isinstance(value, int)` is also true for it; str, int, float, sequence and
mapping values map to their respective variants, and any other type raises
the encoding error. -/
theorem C10_encode_key_value (key : List Char) :
    (∀ b, Otlp.isinstance_int (.bool b) = true ∧
      Otlp._encode_key_value key (.bool b) = .ok (key, .bool_value b)) ∧
    (∀ s, Otlp._encode_key_value key (.str s) = .ok (key, .string_value s)) ∧
    (∀ i, Otlp._encode_key_value key (.int i) = .ok (key, .int_value i)) ∧
    (∀ bits, Otlp._encode_key_value key (.float bits)
      = .ok (key, .double_value bits)) ∧
    (∀ l, Otlp._encode_key_value key (.seq l) = .ok (key, .array_value l)) ∧
    (∀ m, Otlp._encode_key_value key (.mapping m)
      = .ok (key, .kvlist_value m)) ∧
    Otlp._encode_key_value key .other = .error (.invalidType .other) :=
  ⟨fun _ => ⟨rfl, rfl⟩, fun _ => rfl, fun _ => rfl, fun _ => rfl,
    fun _ => rfl, fun _ => rfl, rfl⟩

/-- C3: instrument kind determines the wire variant and derived fields —
Sum for the four sum-family kinds with cumulative temporality and
`is_monotonic` true exactly for counter and cumulative-sum-observer, Gauge
(with delta temporality for its points) for gauge-observer; a data point's
start time is the aggregator's first-seen timestamp under cumulative
temporality and its initial-checkpoint timestamp under delta, and its point
time is always the aggregator's last-update timestamp. -/
theorem C3_metric_wire_mapping (r : Otlp.ExportRecord) :
    (r.instrument.kind = .counter →
      Otlp._encode_metric r = (Otlp._get_data_points r .cumulative).map
        (fun dps => some (Otlp.PB2Metric.mk r.instrument.name
          r.instrument.description r.instrument.unit
          (.sum r.instrument.value_type dps .cumulative true)))) ∧
    (r.instrument.kind = .upDownCounter →
      Otlp._encode_metric r = (Otlp._get_data_points r .cumulative).map
        (fun dps => some (Otlp.PB2Metric.mk r.instrument.name
          r.instrument.description r.instrument.unit
          (.sum r.instrument.value_type dps .cumulative false)))) ∧
    (r.instrument.kind = .sumObserver →
      Otlp._encode_metric r = (Otlp._get_data_points r .cumulative).map
        (fun dps => some (Otlp.PB2Metric.mk r.instrument.name
          r.instrument.description r.instrument.unit
          (.sum r.instrument.value_type dps .cumulative true)))) ∧
    (r.instrument.kind = .upDownSumObserver →
      Otlp._encode_metric r = (Otlp._get_data_points r .cumulative).map
        (fun dps => some (Otlp.PB2Metric.mk r.instrument.name
          r.instrument.description r.instrument.unit
          (.sum r.instrument.value_type dps .cumulative false)))) ∧
    (r.instrument.kind = .valueObserver →
      Otlp._encode_metric r = (Otlp._get_data_points r .delta).map
        (fun dps => some (Otlp.PB2Metric.mk r.instrument.name
          r.instrument.description r.instrument.unit
          (.gauge r.instrument.value_type dps)))) ∧
    (∀ t dps, Otlp._get_data_points r t = .ok dps → ∀ dp ∈ dps,
      dp.start_time_unix_nano =
        (if t = .cumulative then r.aggregator.first_timestamp
         else r.aggregator.initial_checkpoint_timestamp) ∧
      dp.time_unix_nano = r.aggregator.last_update_timestamp) := by
  refine ⟨?_, ?_, ?_, ?_, ?_, ?_⟩
  · intro hk
    unfold Otlp._encode_metric
    rw [hk]
    cases h : Otlp._get_data_points r .cumulative with
    | ok dps => simp [h, Except.map]
    | error e => simp [h, Except.map]
  · intro hk
    unfold Otlp._encode_metric
    rw [hk]
    cases h : Otlp._get_data_points r .cumulative with
    | ok dps => simp [h, Except.map]
    | error e => simp [h, Except.map]
  · intro hk
    unfold Otlp._encode_metric
    rw [hk]
    cases h : Otlp._get_data_points r .cumulative with
    | ok dps => simp [h, Except.map]
    | error e => simp [h, Except.map]
  · intro hk
    unfold Otlp._encode_metric
    rw [hk]
    cases h : Otlp._get_data_points r .cumulative with
    | ok dps => simp [h, Except.map]
    | error e => simp [h, Except.map]
  · intro hk
    unfold Otlp._encode_metric
    rw [hk]
    cases h : Otlp._get_data_points r .delta with
    | ok dps => simp [h, Except.map]
    | error e => simp [h, Except.map]
  · intro t dps h dp hdp
    unfold Otlp._get_data_points at h
    cases hk : r.aggregator.kind <;> rw [hk] at h <;>
      simp only [Except.bind, pure, throw, throwThe, MonadExceptOf.throw] at h
    case sumAggregator =>
      cases h
      rcases List.mem_singleton.mp hdp with rfl
      exact ⟨rfl, rfl⟩
    case minMaxSumCount => cases h
    case histogram => cases h
    case lastValue =>
      cases h
      rcases List.mem_singleton.mp hdp with rfl
      exact ⟨rfl, rfl⟩
    case valueObserverAggregator =>
      cases h
      rcases List.mem_singleton.mp hdp with rfl
      exact ⟨rfl, rfl⟩

theorem C3_witness :
    Otlp._encode_metric
        (Otlp.ExportRecord.mk
          (Otlp.Instrument.mk [('c' : Char)] [] [] .counter .int)
          []
          (Otlp.Aggregator.mk .sumAggregator 111 0 1 2 3)
          []
          none)
      = .ok (some (Otlp.PB2Metric.mk [('c' : Char)] [] []
          (.sum .int [Otlp.PB2DataPoint.mk [] 111 1 3] .cumulative true))) :=
  ((C3_metric_wire_mapping
      (Otlp.ExportRecord.mk
        (Otlp.Instrument.mk [('c' : Char)] [] [] .counter .int)
        []
        (Otlp.Aggregator.mk .sumAggregator 111 0 1 2 3)
        []
        none)).1 rfl).trans rfl

/-- C9 counterexample: the claim says a record whose aggregator is
min-max-sum-count (or histogram) makes the encode raise; but the
ValueRecorder instrument test runs first, so a ValueRecorder record with a
MinMaxSumCount aggregator is skipped (`.ok none`) and nothing is raised. -/
theorem C9_counterexample :
    Otlp._encode_metric
        (Otlp.ExportRecord.mk
          (Otlp.Instrument.mk [] [] [] .valueRecorder .int)
          []
          (Otlp.Aggregator.mk .minMaxSumCount 0 0 0 0 0)
          []
          none)
      = .ok none ∧
    ∀ e, Otlp._encode_metric
        (Otlp.ExportRecord.mk
          (Otlp.Instrument.mk [] [] [] .valueRecorder .int)
          []
          (Otlp.Aggregator.mk .minMaxSumCount 0 0 0 0 0)
          []
          none)
      ≠ Except.error e :=
  ⟨rfl, fun e h => Except.noConfusion ((rfl :
      Otlp._encode_metric
        (Otlp.ExportRecord.mk
          (Otlp.Instrument.mk [] [] [] .valueRecorder .int)
          []
          (Otlp.Aggregator.mk .minMaxSumCount 0 0 0 0 0)
          []
          none)
        = Except.ok none).symm.trans h)⟩

/-- C9 (amended): a value-recorder instrument causes its point to be
dropped with a warning and no wire metric, regardless of the record's
aggregator, and the batch encoder proceeds with the remaining records;
for records of any other instrument kind, a histogram or min-max-sum-count
aggregator causes the encode call to raise. -/
theorem C9_unsupported_handling (r : Otlp.ExportRecord)
    (rest : List Otlp.ExportRecord) :
    (r.instrument.kind = .valueRecorder → Otlp._encode_metric r = .ok none) ∧
    (r.instrument.kind = .valueRecorder →
      Otlp._encode_resource_metrics (r :: rest)
        = Otlp._encode_resource_metrics rest) ∧
    (r.instrument.kind ≠ .valueRecorder → r.aggregator.kind = .minMaxSumCount →
      Otlp._encode_metric r = .error .minMaxSumCountNotSupported) ∧
    (r.instrument.kind ≠ .valueRecorder → r.aggregator.kind = .histogram →
      Otlp._encode_metric r = .error .histogramNotSupported) := by
  have hvr : r.instrument.kind = .valueRecorder →
      Otlp._encode_metric r = .ok none := by
    intro h
    unfold Otlp._encode_metric
    rw [h]
    rfl
  refine ⟨hvr, ?_, ?_, ?_⟩
  · intro h
    unfold Otlp._encode_resource_metrics
    rw [List.foldlM_cons, hvr h]
    rfl
  · intro h hagg
    unfold Otlp._encode_metric
    have hgdp : Otlp._get_data_points r .cumulative
        = .error .minMaxSumCountNotSupported ∧
        Otlp._get_data_points r .delta
          = .error .minMaxSumCountNotSupported := by
      constructor <;> (unfold Otlp._get_data_points; rw [hagg]; rfl)
    cases hk : r.instrument.kind
    case valueRecorder => exact absurd hk h
    case counter => rw [hgdp.1]; rfl
    case upDownCounter => rw [hgdp.1]; rfl
    case sumObserver => rw [hgdp.1]; rfl
    case upDownSumObserver => rw [hgdp.1]; rfl
    case valueObserver => rw [hgdp.2]; rfl
  · intro h hagg
    unfold Otlp._encode_metric
    have hgdp : Otlp._get_data_points r .cumulative
        = .error .histogramNotSupported ∧
        Otlp._get_data_points r .delta
          = .error .histogramNotSupported := by
      constructor <;> (unfold Otlp._get_data_points; rw [hagg]; rfl)
    cases hk : r.instrument.kind
    case valueRecorder => exact absurd hk h
    case counter => rw [hgdp.1]; rfl
    case upDownCounter => rw [hgdp.1]; rfl
    case sumObserver => rw [hgdp.1]; rfl
    case upDownSumObserver => rw [hgdp.1]; rfl
    case valueObserver => rw [hgdp.2]; rfl

theorem C9_witness :
    Otlp._encode_resource_metrics
        [Otlp.ExportRecord.mk (Otlp.Instrument.mk [] [] [] .valueRecorder .int)
          [] (Otlp.Aggregator.mk .histogram 0 0 0 0 0) [] none,
         Otlp.ExportRecord.mk (Otlp.Instrument.mk [] [] [] .counter .int)
          [] (Otlp.Aggregator.mk .sumAggregator 7 0 0 0 0) [] none]
      = Otlp._encode_resource_metrics
        [Otlp.ExportRecord.mk (Otlp.Instrument.mk [] [] [] .counter .int)
          [] (Otlp.Aggregator.mk .sumAggregator 7 0 0 0 0) [] none] ∧
    Otlp._encode_metric
        (Otlp.ExportRecord.mk (Otlp.Instrument.mk [] [] [] .counter .int)
          [] (Otlp.Aggregator.mk .minMaxSumCount 0 0 0 0 0) [] none)
      = .error .minMaxSumCountNotSupported :=
  ⟨(C9_unsupported_handling
      (Otlp.ExportRecord.mk (Otlp.Instrument.mk [] [] [] .valueRecorder .int)
        [] (Otlp.Aggregator.mk .histogram 0 0 0 0 0) [] none)
      [Otlp.ExportRecord.mk (Otlp.Instrument.mk [] [] [] .counter .int)
        [] (Otlp.Aggregator.mk .sumAggregator 7 0 0 0 0) [] none]).2.1 rfl,
   (C9_unsupported_handling
      (Otlp.ExportRecord.mk (Otlp.Instrument.mk [] [] [] .counter .int)
        [] (Otlp.Aggregator.mk .minMaxSumCount 0 0 0 0 0) [] none)
      []).2.2.1 (by decide) rfl⟩

/-- C7: evaluation at the failing input and at the metric-side input.  A
metric record with an absent InstrumentationScope is grouped under the
`None` key and encoded with an empty-name, empty-version scope record, as
the claim states; but a span with an absent scope is grouped under the
Python string `"None"` (`instrumentation_info or "None"`), and encoding
that key reads `.name` off a `str`, raising `AttributeError` instead of
producing an empty scope record. -/
theorem C7_scope_absent :
    Otlp._encode_resource_metrics
        [Otlp.ExportRecord.mk
          (Otlp.Instrument.mk [('c' : Char)] [] [] .counter .int)
          [] (Otlp.Aggregator.mk .sumAggregator 5 0 1 2 3) [] none]
      = .ok [Otlp.PB2ResourceMetrics.mk []
          [Otlp.PB2InstrumentationLibraryMetrics.mk ([], [])
            [Otlp.PB2Metric.mk [('c' : Char)] [] []
              (.sum .int [Otlp.PB2DataPoint.mk [] 5 1 3] .cumulative true)]]] ∧
    Otlp._encode_resource_spans [Otlp.SDKSpan.mk [] none (0 : Nat)]
      = .error .attributeError :=
  ⟨rfl, rfl⟩

namespace Otlp

theorem expoDelay_ne_900_lt (n : Nat) (h : expoDelay n ≠ 900) : n < 10 := by
  have h2 : 2 ^ n < 900 := by
    by_contra hc
    exact h (by unfold expoDelay; rw [if_neg hc])
  by_contra hn
  have : (2 : Nat) ^ 10 ≤ 2 ^ n := Nat.pow_le_pow_right (by norm_num) (by omega)
  omega

theorem expoDelay_of_ge (n : Nat) (h : 10 ≤ n) : expoDelay n = 900 := by
  unfold expoDelay
  rw [if_neg]
  intro hlt
  have : (2 : Nat) ^ 10 ≤ 2 ^ n := Nat.pow_le_pow_right (by norm_num) h
  omega

theorem sendFrom_ceiling (outcomes : Nat → RpcOutcome) (n : Nat)
    (h : expoDelay n = 900) : sendFrom outcomes n = (false, []) := by
  rw [sendFrom]
  rw [dif_pos h]

theorem sendFrom_success (outcomes : Nat → RpcOutcome) (n : Nat)
    (hd : expoDelay n ≠ 900) (h : outcomes n = .success) :
    sendFrom outcomes n = (true, []) := by
  rw [sendFrom, dif_neg hd, h]

theorem sendFrom_nonretryable (outcomes : Nat → RpcOutcome) (n : Nat)
    (code : StatusCode) (hint : Option RetryDelay)
    (hd : expoDelay n ≠ 900) (h : outcomes n = .error code hint)
    (hnr : code ∉ RETRYABLE_ERROR_CODES) :
    sendFrom outcomes n = (if code = .ok then (true, []) else (false, [])) := by
  rw [sendFrom, dif_neg hd, h]
  simp only [hnr, if_false]

theorem sendFrom_retryable (outcomes : Nat → RpcOutcome) (n : Nat)
    (code : StatusCode) (hint : Option RetryDelay)
    (hd : expoDelay n ≠ 900) (h : outcomes n = .error code hint)
    (hr : code ∈ RETRYABLE_ERROR_CODES) :
    sendFrom outcomes n =
      ((sendFrom outcomes (n + 1)).1,
        ((hint.map SleepAmount.retryInfoHint).getD
            (SleepAmount.backoff (expoDelay n))) ::
          (sendFrom outcomes (n + 1)).2) := by
  rw [sendFrom, dif_neg hd, h]
  simp only [hr, if_true]
  cases hint with
  | none => rfl
  | some d => rfl

theorem sendFrom_sleeps_le (outcomes : Nat → RpcOutcome) :
    ∀ (k n : Nat), 10 ≤ n + k → (sendFrom outcomes n).2.length ≤ k := by
  intro k
  induction k with
  | zero =>
      intro n hn
      rw [sendFrom_ceiling outcomes n (expoDelay_of_ge n (by omega))]
      exact Nat.le_refl 0
  | succ k ih =>
      intro n hn
      by_cases hd : expoDelay n = 900
      · rw [sendFrom_ceiling outcomes n hd]
        exact Nat.zero_le _
      · cases houtcome : outcomes n with
        | success =>
            rw [sendFrom_success outcomes n hd houtcome]
            exact Nat.zero_le _
        | error code hint =>
            by_cases hr : code ∈ RETRYABLE_ERROR_CODES
            · rw [sendFrom_retryable outcomes n code hint hd houtcome hr]
              have := ih (n + 1) (by omega)
              simpa using this
            · rw [sendFrom_nonretryable outcomes n code hint hd houtcome hr]
              by_cases hok : code = .ok
              · rw [if_pos hok]
                exact Nat.zero_le _
              · rw [if_neg hok]
                exact Nat.zero_le _

end Otlp

/-- C8: the gRPC send loop returns true on a successful attempt; treats an
error whose status is OK as success; returns false immediately on any
non-retryable status; on a retryable status sleeps the server-supplied
retry-delay hint when the trailing metadata carries one, otherwise the
exponential-backoff delay, and retries; gives up with false once the
backoff delay reaches the 900-second ceiling; and therefore performs a
bounded number of attempts (at most 10 sleeps) for every outcome
sequence. -/
theorem C8_grpc_send (outcomes : Nat → Otlp.RpcOutcome) :
    (outcomes 0 = .success → Otlp.send outcomes = (true, [])) ∧
    (∀ code hint, outcomes 0 = .error code hint →
      code ∉ Otlp.RETRYABLE_ERROR_CODES → code = .ok →
      Otlp.send outcomes = (true, [])) ∧
    (∀ code hint, outcomes 0 = .error code hint →
      code ∉ Otlp.RETRYABLE_ERROR_CODES → code ≠ .ok →
      Otlp.send outcomes = (false, [])) ∧
    (∀ n code hint, Otlp.expoDelay n ≠ 900 → outcomes n = .error code hint →
      code ∈ Otlp.RETRYABLE_ERROR_CODES →
      Otlp.sendFrom outcomes n =
        ((Otlp.sendFrom outcomes (n + 1)).1,
          ((hint.map Otlp.SleepAmount.retryInfoHint).getD
              (Otlp.SleepAmount.backoff (Otlp.expoDelay n))) ::
            (Otlp.sendFrom outcomes (n + 1)).2)) ∧
    Otlp.sendFrom outcomes 10 = (false, []) ∧
    (Otlp.send outcomes).2.length ≤ 10 := by
  have hd0 : Otlp.expoDelay 0 ≠ 900 := by decide
  refine ⟨?_, ?_, ?_, ?_, ?_, ?_⟩
  · intro h
    exact Otlp.sendFrom_success outcomes 0 hd0 h
  · intro code hint h hnr hok
    have := Otlp.sendFrom_nonretryable outcomes 0 code hint hd0 h hnr
    rw [if_pos hok] at this
    exact this
  · intro code hint h hnr hok
    have := Otlp.sendFrom_nonretryable outcomes 0 code hint hd0 h hnr
    rw [if_neg hok] at this
    exact this
  · intro n code hint hd h hr
    exact Otlp.sendFrom_retryable outcomes n code hint hd h hr
  · exact Otlp.sendFrom_ceiling outcomes 10 (by decide)
  · exact Otlp.sendFrom_sleeps_le outcomes 10 0 (by omega)

theorem C8_witness :
    Otlp.send (fun k => if k = 0
        then Otlp.RpcOutcome.error .unavailable none
        else Otlp.RpcOutcome.success)
      = ((Otlp.sendFrom (fun k => if k = 0
            then Otlp.RpcOutcome.error .unavailable none
            else Otlp.RpcOutcome.success) 1).1,
          ((Option.map Otlp.SleepAmount.retryInfoHint none).getD
              (Otlp.SleepAmount.backoff (Otlp.expoDelay 0))) ::
            (Otlp.sendFrom (fun k => if k = 0
              then Otlp.RpcOutcome.error .unavailable none
              else Otlp.RpcOutcome.success) 1).2) :=
  (C8_grpc_send (fun k => if k = 0
      then Otlp.RpcOutcome.error .unavailable none
      else Otlp.RpcOutcome.success)).2.2.2.1
    0 .unavailable none (by decide) (by decide) (by decide)
